import Mathlib

/-!
Verification development for the personal task-automation agent
(privacy redaction engine `tools/privacy.py`, executor `agent/executor.py`,
orchestrator `agent/loop.py`).

Texts are shallowly embedded as `List Char` (Python `str`); the regular
expressions of the source are embedded as values of a small regex AST `RE`
together with an executable matcher `reMatch` that reproduces the semantics
of Python's `re` module on these patterns: leftmost match, ordered
alternation (earlier alternatives preferred), greedy quantifiers with
backtracking, word boundaries, and `finditer`'s non-overlapping scan.
External collaborators (the LLM client, the Presidio analyzer, the tool
registry, the planner, the evaluator verdicts) are modelled as oracle
parameters, exactly at the call boundaries the source gives them.
-/

namespace Agent

/-! ### Basic string utilities (Python `str` operations on `List Char`) -/

/-- Python `\w` for ASCII input: letters, digits, underscore. -/
def isWordChar (c : Char) : Bool := c.isAlphanum || c = '_'

/-- Python `\s`: space, tab, newline, carriage return, vertical tab, form feed. -/
def pySpace (c : Char) : Bool :=
  c = ' ' || c = '\t' || c = '\n' || c = '\r' || c = '\x0b' || c = '\x0c'

/-- Lowercase a text (Python `str.lower`, ASCII). -/
def lowerL (t : List Char) : List Char := t.map Char.toLower

/-- Python slice `t[a:b]` (clamping semantics for out-of-range bounds). -/
def slice (a b : Nat) (t : List Char) : List Char := (t.drop a).take (b - a)

/-- Character at index `i` is alphabetic (`str.isalpha` on a single char). -/
def isAlphaAt (t : List Char) (i : Nat) : Bool :=
  match t.get? i with
  | some c => c.isAlpha
  | none => false

/-- Word character at index `i` (out of range counts as non-word). -/
def wordAt (t : List Char) (i : Nat) : Bool :=
  match t.get? i with
  | some c => isWordChar c
  | none => false

/-- Length of the maximal run of characters satisfying `p`. -/
def countWhile (p : Char → Bool) : List Char → Nat
  | [] => 0
  | c :: r => if p c then countWhile p r + 1 else 0

/-- Python `sub in t` (substring containment). -/
def containsL (t sub : List Char) : Bool :=
  if sub.isPrefixOf t then true
  else
    match t with
    | [] => false
    | _ :: r => containsL r sub

/-- Python `t.find(sub)`: index of the first occurrence, `none` if absent. -/
def findSub (t sub : List Char) : Option Nat :=
  if sub.isPrefixOf t then some 0
  else
    match t with
    | [] => none
    | _ :: r => (findSub r sub).map (· + 1)

/-- Python `t.replace(old, new, 1)`: replace the first occurrence only. -/
def replFirst (t old new : List Char) : List Char :=
  if old.isPrefixOf t then new ++ t.drop old.length
  else
    match t with
    | [] => []
    | c :: r => c :: replFirst r old new

/-- Python `t.replace(old, new)` for nonempty `old`, by fuel recursion
(structural, so that closed instances evaluate by `decide`); with
`fuel ≥ t.length` the fuel never runs out, since every step consumes at
least one character. -/
def replAllAux (old new : List Char) : Nat → List Char → List Char
  | 0, t => t
  | _ + 1, [] => []
  | fuel + 1, c :: r =>
    if old.isPrefixOf (c :: r) && !old.isEmpty then
      new ++ replAllAux old new fuel ((c :: r).drop old.length)
    else
      c :: replAllAux old new fuel r

/-- Python `t.replace(old, new)` including the empty-`old` edge case
(`"ab".replace("", "x") == "xaxbx"`). -/
def replAll (t old new : List Char) : List Char :=
  if old = [] then new ++ t.flatMap (fun c => c :: new)
  else replAllAux old new t.length t

/-- Python `t.strip()` (strip whitespace from both ends). -/
def stripWS (t : List Char) : List Char :=
  ((t.dropWhile pySpace).reverse.dropWhile pySpace).reverse

/-- Python `t.rstrip(chars)`. -/
def rstripSet (chars : List Char) (t : List Char) : List Char :=
  (t.reverse.dropWhile (fun c => chars.contains c)).reverse

/-- Python `t.split()` (split on whitespace runs, dropping empty chunks),
by fuel recursion; `fuel ≥ t.length` suffices. -/
def splitWSAux : Nat → List Char → List (List Char)
  | 0, _ => []
  | _ + 1, [] => []
  | fuel + 1, c :: r =>
    if pySpace c then splitWSAux fuel r
    else
      (c :: r).takeWhile (fun x => !pySpace x) ::
        splitWSAux fuel (r.dropWhile (fun x => !pySpace x))

def splitWS (t : List Char) : List (List Char) := splitWSAux t.length t

/-- Python `sep.join(parts)` / intercalation. -/
def joinWith (sep : List Char) (parts : List (List Char)) : List Char :=
  match parts with
  | [] => []
  | [p] => p
  | p :: rest => p ++ sep ++ joinWith sep rest

/-- Python `t.split(sep)` for nonempty `sep` (non-overlapping,
left-to-right), by fuel recursion; `fuel ≥ t.length` suffices. -/
def splitOnAux (sep : List Char) : Nat → List Char → List Char →
    List (List Char)
  | 0, t, acc => [acc.reverse ++ t]
  | _ + 1, [], acc => [acc.reverse]
  | fuel + 1, c :: r, acc =>
    if sep.isPrefixOf (c :: r) && !sep.isEmpty then
      acc.reverse :: splitOnAux sep fuel ((c :: r).drop sep.length) []
    else
      splitOnAux sep fuel r (c :: acc)

def splitOnSep (sep t : List Char) : List (List Char) :=
  splitOnAux sep t.length t []

/-- Python `t.startswith(p)`. -/
def startsWith (t p : List Char) : Bool := p.isPrefixOf t

/-- Python `t[:n]`. -/
def takeL (n : Nat) (t : List Char) : List Char := t.take n

/-! ### Regex engine

A minimal regex AST with an executable matcher reproducing Python `re`
semantics for the patterns of this repository: ordered alternation, greedy
quantifiers (via preference-ordered candidate lists), word boundaries, the
end anchor, and one capturing group. `reMatch` returns all candidate match
ends in backtracking preference order; the head of the list is the match
Python's engine produces. -/

inductive RE where
  | eps
  | cls (p : Char → Bool)
  | seq (a b : RE)
  | alt (a b : RE)
  | many1 (p : Char → Bool)
  | wb
  | eol
  | grp (a : RE)

/-- All candidate `(matchEnd, group1span)` pairs for matching `r` at
position `i` of `t`, in Python's backtracking preference order. -/
def reMatch : RE → List Char → Nat → Option (Nat × Nat) →
    List (Nat × Option (Nat × Nat))
  | .eps, _, i, cp => [(i, cp)]
  | .cls p, t, i, cp =>
    match t.get? i with
    | some c => if p c then [(i + 1, cp)] else []
    | none => []
  | .seq a b, t, i, cp =>
    ((reMatch a t i cp).map (fun x => reMatch b t x.1 x.2)).flatten
  | .alt a b, t, i, cp => reMatch a t i cp ++ reMatch b t i cp
  | .many1 p, t, i, cp =>
    let n := countWhile p (t.drop i)
    (List.range n).map (fun k => (i + n - k, cp))
  | .wb, t, i, cp =>
    if (decide (0 < i) && wordAt t (i - 1)) != wordAt t i then [(i, cp)] else []
  | .eol, t, i, cp =>
    if i == t.length || ((i + 1 == t.length) && (t.get? i == some '\n')) then
      [(i, cp)]
    else []
  | .grp a, t, i, cp =>
    (reMatch a t i cp).map (fun x => (x.1, some (i, x.1)))

/-- Python `pattern.search(t)` starting at `i`, by fuel recursion over the
candidate start positions (`fuel ≥ t.length + 1 - i` suffices): the leftmost
match, as `(start, end, group1)`. -/
def searchAux (r : RE) (t : List Char) : Nat → Nat →
    Option (Nat × Nat × Option (Nat × Nat))
  | 0, _ => none
  | fuel + 1, i =>
    if i ≤ t.length then
      match (reMatch r t i none).head? with
      | some (e, cp) => some (i, e, cp)
      | none => searchAux r t fuel (i + 1)
    else none

def searchFrom (r : RE) (t : List Char) (i : Nat) :
    Option (Nat × Nat × Option (Nat × Nat)) :=
  searchAux r t (t.length + 1 - i) i

/-- Python `pattern.finditer(t)` from position `i`, by fuel recursion:
non-overlapping matches, scanning left to right (an empty match advances by
one); each step advances the position, so `fuel ≥ t.length + 1 - i`
suffices. -/
def findIterAux (r : RE) (t : List Char) : Nat → Nat →
    List (Nat × Nat × Option (Nat × Nat))
  | 0, _ => []
  | fuel + 1, i =>
    if i ≤ t.length then
      match (reMatch r t i none).head? with
      | some (e, cp) =>
        (i, e, cp) ::
          (if i < e then findIterAux r t fuel e else findIterAux r t fuel (i + 1))
      | none => findIterAux r t fuel (i + 1)
    else []

def findIter (r : RE) (t : List Char) : List (Nat × Nat × Option (Nat × Nat)) :=
  findIterAux r t (t.length + 1) 0

/-! Pattern building blocks (no notation; plain constructors). -/

def rcat (l : List RE) : RE := l.foldr RE.seq RE.eps

def ralts : List RE → RE
  | [] => RE.cls (fun _ => false)
  | [a] => a
  | a :: rest => RE.alt a (ralts rest)

/-- Literal character (case-sensitive). -/
def rch (c : Char) : RE := RE.cls (fun x => x == c)

/-- Literal character under `re.IGNORECASE`. -/
def rchI (c : Char) : RE := RE.cls (fun x => x.toLower == c.toLower)

/-- Literal string (case-sensitive). -/
def rlit (s : String) : RE := rcat (s.data.map rch)

/-- Literal string under `re.IGNORECASE`. -/
def rlitI (s : String) : RE := rcat (s.data.map rchI)

/-- Literal text given as `List Char`, under `re.IGNORECASE`. -/
def rlitIL (s : List Char) : RE := rcat (s.map rchI)

/-- Greedy `a?`. -/
def ropt (a : RE) : RE := RE.alt a RE.eps

/-- Greedy `p*` for a character class. -/
def rmany0 (p : Char → Bool) : RE := ropt (RE.many1 p)

/-- `a{n}`. -/
def rrepN (a : RE) (n : Nat) : RE := rcat (List.replicate n a)

/-- Greedy `a{0,n}`. -/
def rupto (a : RE) : Nat → RE
  | 0 => RE.eps
  | n + 1 => ropt (RE.seq a (rupto a n))

/-- Greedy `a{lo,hi}`. -/
def rrep (a : RE) (lo hi : Nat) : RE := RE.seq (rrepN a lo) (rupto a (hi - lo))

def rdigit : RE := RE.cls Char.isDigit

/-! ### Association-list model of Python `dict` (insertion-ordered) -/

abbrev Str := List Char

/-- First-match lookup (`d.get(k)` / `d[k]`). -/
def aget {κ β : Type} [DecidableEq κ] (l : List (κ × β)) (k : κ) : Option β :=
  match l with
  | [] => none
  | (k', v) :: r => if k' = k then some v else aget r k

/-- Python `d[k] = v`: update in place if present (keeping position),
else append at the end (insertion order). -/
def aset {κ β : Type} [DecidableEq κ] (l : List (κ × β)) (k : κ) (v : β) :
    List (κ × β) :=
  match l with
  | [] => [(k, v)]
  | (k', v') :: r => if k' = k then (k, v) :: r else (k', v') :: aset r k v

/-- Python `old.update(new)`. -/
def dictUpdate {κ β : Type} [DecidableEq κ] (old new : List (κ × β)) :
    List (κ × β) :=
  new.foldl (fun m kv => aset m kv.1 kv.2) old

/-- Stable insertion for a descending sort by a numeric key: the element is
placed before the first strictly-smaller key, after equal keys. -/
def insDescBy {α : Type} (key : α → Nat) (c : α) : List α → List α
  | [] => [c]
  | d :: r => if key d < key c then c :: d :: r else d :: insDescBy key c r

/-- Python `sorted(l, key=key, reverse=True)` / `l.sort(key=key, reverse=True)`:
stable descending sort. -/
def sortDescBy {α : Type} (key : α → Nat) (l : List α) : List α :=
  l.foldl (fun acc c => insDescBy key c acc) []

/-! ### `tools/privacy.py` — structured-PII patterns (`_REGEX_PATTERNS`) -/

def emailChar (c : Char) : Bool := isWordChar c || c = '.' || c = '-'

/-- `\b[\w.-]+@[\w.-]+\.\w+\b` -/
def EMAIL_RE : RE :=
  rcat [RE.wb, RE.many1 emailChar, rch '@', RE.many1 emailChar, rch '.',
        RE.many1 isWordChar, RE.wb]

def phoneSep (c : Char) : Bool := c = '-' || c = '.' || pySpace c

/-- `\b(?:\+?\d{1,3}[-.\s]?)?\(?\d{3}\)?[-.\s]?\d{3}[-.\s]?\d{4}\b` -/
def PHONE_RE : RE :=
  rcat [RE.wb,
        ropt (rcat [ropt (rch '+'), rrep rdigit 1 3, ropt (RE.cls phoneSep)]),
        ropt (rch '('), rrepN rdigit 3, ropt (rch ')'),
        ropt (RE.cls phoneSep), rrepN rdigit 3,
        ropt (RE.cls phoneSep), rrepN rdigit 4, RE.wb]

/-- `\b\d{3}-\d{2}-\d{4}\b` -/
def SSN_RE : RE :=
  rcat [RE.wb, rrepN rdigit 3, rch '-', rrepN rdigit 2, rch '-',
        rrepN rdigit 4, RE.wb]

/-- `\b(?:\d{4}[-\s]?){3}\d{4}\b` -/
def CREDIT_CARD_RE : RE :=
  rcat [RE.wb,
        rrepN (rcat [rrepN rdigit 4, ropt (RE.cls (fun c => c = '-' || pySpace c))]) 3,
        rrepN rdigit 4, RE.wb]

/-- One IPv4 octet: `25[0-5]|2[0-4]\d|[01]?\d\d?` (alternatives in order). -/
def IP_OCTET : RE :=
  ralts [rcat [rch '2', rch '5', RE.cls (fun c => decide ('0' ≤ c) && decide (c ≤ '5'))],
         rcat [rch '2', RE.cls (fun c => decide ('0' ≤ c) && decide (c ≤ '4')), rdigit],
         rcat [ropt (RE.cls (fun c => c = '0' || c = '1')), rdigit, ropt rdigit]]

/-- `\b(octet)(\.(octet)){3}\b` -/
def IP_ADDRESS_RE : RE :=
  rcat [RE.wb, IP_OCTET, rrepN (rcat [rch '.', IP_OCTET]) 3, RE.wb]

/-- `_REGEX_PATTERNS`, in the source's (insertion-ordered dict) iteration order. -/
def REGEX_PATTERNS : List (String × RE) :=
  [("EMAIL", EMAIL_RE), ("PHONE", PHONE_RE), ("SSN", SSN_RE),
   ("CREDIT_CARD", CREDIT_CARD_RE), ("IP_ADDRESS", IP_ADDRESS_RE)]

/-! ### `tools/privacy.py` — name-detection vocabularies -/

/-- `_ROLE_WORDS` (a Python set; no element is a prefix of another, so the
alternation order the source gets from set iteration cannot affect matching —
any fixed order is faithful). -/
def ROLE_WORDS : List String :=
  ["cfo", "ceo", "cto", "coo", "cpo", "cmo", "vp", "svp", "evp", "avp",
   "president", "director", "manager", "lead", "head", "chief",
   "boss", "supervisor", "colleague", "coworker", "assistant",
   "secretary", "analyst", "engineer", "developer", "designer",
   "accountant", "lawyer", "attorney", "doctor", "professor",
   "advisor", "consultant", "partner", "associate", "intern",
   "friend", "brother", "sister", "mom", "dad", "wife", "husband",
   "uncle", "aunt", "cousin", "neighbor", "roommate"]

/-- `_STOP_WORDS` (membership-only set; duplicates in the source literal are
irrelevant). -/
def STOP_WORDS : List Str :=
  (["monday", "tuesday", "wednesday", "thursday", "friday", "saturday", "sunday",
    "january", "february", "march", "april", "may", "june", "july",
    "august", "september", "october", "november", "december",
    "email", "message", "meeting", "report", "document", "file", "project",
    "team", "department", "company", "group", "schedule", "calendar",
    "draft", "reply", "send", "create", "list", "read", "summarize",
    "research", "search", "find", "check", "verify", "prepare",
    "reminder", "event", "task", "note", "memo", "letter", "invoice",
    "add", "remove", "delete", "update", "edit", "change", "move", "copy",
    "set", "put", "run", "open", "close", "start", "stop", "cancel",
    "save", "load", "show", "hide", "view", "print", "export", "import",
    "share", "forward", "attach", "upload", "download", "sync",
    "book", "reserve", "confirm", "accept", "decline", "approve", "reject",
    "assign", "complete", "finish", "submit", "review", "sign", "mark",
    "write", "compose", "type", "enter", "fill", "format", "clean",
    "sort", "filter", "merge", "split", "combine", "compare", "convert",
    "track", "monitor", "follow", "watch", "log", "record", "count",
    "help", "fix", "resolve", "handle", "process", "manage", "organize",
    "plan", "setup", "configure", "install", "test", "debug", "deploy",
    "look", "see", "try", "use", "take", "give", "tell", "say", "go",
    "needed", "wanted", "asked", "called", "named", "based", "related",
    "included", "attached", "mentioned", "discussed", "scheduled",
    "reach", "reached", "include", "included", "inform", "informed",
    "shared", "private", "public", "personal", "important", "urgent",
    "available", "free", "busy", "open", "closed", "pending", "done",
    "old", "good", "bad", "big", "small", "long", "short", "full", "empty",
    "first", "second", "third", "other", "same", "different", "main",
    "whole", "entire", "current", "previous", "original", "final",
    "quick", "fast", "slow", "early", "late", "ready", "sure", "right",
    "corp", "corporation", "inc", "llc", "ltd", "company", "enterprises",
    "technologies", "tech", "labs", "studio", "studios", "solutions",
    "partners", "capital", "ventures", "foundation", "institute",
    "university", "bank", "global", "international",
    "me", "my", "him", "her", "his", "them", "their", "the", "a", "an",
    "this", "that", "it", "about", "and", "for", "with", "from", "who",
    "is", "are", "was", "were", "be", "been", "being", "have", "has",
    "he", "she", "we", "they", "us", "our", "its", "you", "your",
    "i", "am", "had", "has", "having", "been",
    "to", "in", "on", "at", "by", "of", "up", "out", "off", "into",
    "over", "after", "before", "between", "through", "during", "until",
    "or", "but", "so", "yet", "nor", "if", "then", "also", "just",
    "not", "no", "all", "any", "some", "each", "every", "both",
    "please", "can", "could", "would", "should", "will", "shall",
    "do", "does", "did", "get", "got", "let", "make", "know", "need",
    "want", "like", "new", "latest", "recent", "last", "next", "upcoming",
    "whatsapp", "slack", "gmail", "outlook", "google", "microsoft",
    "zoom", "teams", "skype", "discord", "telegram",
    "linkup", "acme", "inbox", "folder"] : List String).map String.data

/-- `_PRE_NAME_KEYWORDS`, in the source's list order (alternation order). -/
def PRE_NAME_KEYWORDS : List String :=
  ["to", "from", "with", "tell", "ask", "email", "message",
   "contact", "call", "notify", "invite", "cc", "bcc",
   "remind", "meet", "ping", "text", "reply to",
   "schedule with", "meeting with", "call with"]

def POSSESSIVES : List String := ["my", "our", "the", "his", "her", "their", "your"]

/-! ### `tools/privacy.py` — name-detection patterns (all `re.IGNORECASE`) -/

def nameChar (c : Char) : Bool := c.isAlpha || c = '\'' || c = '-'

/-- `[a-zA-Z][a-zA-Z'-]*` -/
def wordOne : RE := RE.seq (RE.cls Char.isAlpha) (rmany0 nameChar)

/-- `[a-zA-Z][a-zA-Z'-]*(?:\s+[a-zA-Z][a-zA-Z'-]*){0,2}` -/
def nameUpTo3 : RE := RE.seq wordOne (rupto (RE.seq (RE.many1 pySpace) wordOne) 2)

/-- `[a-zA-Z][a-zA-Z'-]*(?:\s+[a-zA-Z][a-zA-Z'-]*)?` -/
def nameUpTo2 : RE := RE.seq wordOne (rupto (RE.seq (RE.many1 pySpace) wordOne) 1)

def possAlt : RE := ralts (POSSESSIVES.map rlitI)

def roleAlt : RE := ralts (ROLE_WORDS.map rlitI)

/-- `_PATTERN_KEYWORD_NAME`:
`\b(?:kw|...)\s+([a-zA-Z][a-zA-Z'-]*(?:\s+[a-zA-Z][a-zA-Z'-]*){0,2})(?:\s|$|[,.])` -/
def PATTERN_KEYWORD_NAME : RE :=
  rcat [RE.wb, ralts (PRE_NAME_KEYWORDS.map rlitI), RE.many1 pySpace,
        RE.grp nameUpTo3,
        ralts [RE.cls pySpace, RE.eol, RE.cls (fun c => c = ',' || c = '.')]]

/-- `_PATTERN_NAME_ROLE`: `\b(name12)\s+(?:my|our|the|his|her|their|your)\s+(role)\b` -/
def PATTERN_NAME_ROLE : RE :=
  rcat [RE.wb, RE.grp nameUpTo2, RE.many1 pySpace, possAlt, RE.many1 pySpace,
        roleAlt, RE.wb]

/-- `_PATTERN_NAME_WHOIS`: `\b(name12)\s+who\s+is\s+(?:poss)?\s*(role)\b` -/
def PATTERN_NAME_WHOIS : RE :=
  rcat [RE.wb, RE.grp nameUpTo2, RE.many1 pySpace, rlitI "who",
        RE.many1 pySpace, rlitI "is", RE.many1 pySpace,
        ropt possAlt, rmany0 pySpace, roleAlt, RE.wb]

/-- `_PATTERN_NAME_COMMA_ROLE`: `\b(name12)\s*,\s*(?:poss)\s+(role)\b` -/
def PATTERN_NAME_COMMA_ROLE : RE :=
  rcat [RE.wb, RE.grp nameUpTo2, rmany0 pySpace, rch ',', rmany0 pySpace,
        possAlt, RE.many1 pySpace, roleAlt, RE.wb]

/-! ### `tools/privacy.py` — contextual name extraction -/

/-- The org-suffix set local to `_is_org_name`. -/
def ORG_SUFFIXES : List Str :=
  (["corp", "corporation", "inc", "llc", "ltd", "company",
    "enterprises", "technologies", "tech", "labs", "studios",
    "solutions", "partners", "capital", "ventures", "group",
    "foundation", "institute", "university", "bank"] : List String).map String.data

def ORG_SIGNALS : List Str :=
  (["company", "firm", "startup", "corporation", "organization"] : List String).map
    String.data

/-- `_is_org_name(name, text)`. -/
def is_org_name (name text : Str) : Bool :=
  let nameLower := lowerL name
  let words := splitWS nameLower
  if words.any (fun w => ORG_SUFFIXES.contains w) then true
  else
    match findSub (lowerL text) nameLower with
    | some idx =>
      let window := lowerL (slice (idx - 25) (idx + name.length + 25) text)
      ORG_SIGNALS.any (fun sig => containsL window sig)
    | none => false

structure Cand where
  name : Str
  s : Nat
  e : Nat
deriving DecidableEq

def allNamePatterns : List RE :=
  [PATTERN_NAME_ROLE, PATTERN_NAME_WHOIS, PATTERN_NAME_COMMA_ROLE,
   PATTERN_KEYWORD_NAME]

/-- One iteration of the match loop inside `_extract_name_candidates`. -/
def candStep (text : Str) (acc : List Cand × List (Nat × Nat))
    (m : Nat × Nat × Option (Nat × Nat)) : List Cand × List (Nat × Nat) :=
  match m.2.2 with
  | none => acc
  | some (gs, ge) =>
    let name0 := stripWS (slice gs ge text)
    let name := rstripSet ".,;:!?".data name0
    if name = [] || name.length < 2 then acc
    else
      let ws := splitWS name
      let ws1 := ws.dropWhile (fun w => STOP_WORDS.contains (lowerL w))
      let ws2 := (ws1.reverse.dropWhile (fun w => STOP_WORDS.contains (lowerL w))).reverse
      if ws2 = [] then acc
      else
        let finalName := joinWith " ".data ws2
        if finalName = [] || finalName.length < 3 then acc
        else if STOP_WORDS.contains (lowerL finalName) then acc
        else if is_org_name finalName text then acc
        else
          match searchFrom (rcat [RE.wb, rlitIL finalName, RE.wb]) text 0 with
          | none => acc
          | some (s, e, _) =>
            if acc.2.contains (s, e) then acc
            else (acc.1 ++ [⟨slice s e text, s, e⟩], acc.2 ++ [(s, e)])

/-- `_extract_name_candidates(text)`. -/
def extract_name_candidates (text : Str) : List Cand :=
  (allNamePatterns.foldl
    (fun acc pat => (findIter pat text).foldl (candStep text) acc)
    ([], [])).1

/-! ### `tools/privacy.py` — redaction passes -/

structure RedState where
  red : Str
  em : List (Str × Str)
  cnt : List (Str × Nat)
deriving DecidableEq

/-- `f"<{label}_{n}>"` -/
def placeholder (label : Str) (n : Nat) : Str :=
  ('<' :: label) ++ ('_' :: (toString n).data) ++ ['>']

/-- One iteration of the structured-PII loop in `_regex_redact`
(`snap` is the string `finditer` was called on). -/
def structStep (label : Str) (snap : Str) (st : RedState)
    (m : Nat × Nat × Option (Nat × Nat)) : RedState :=
  let original := slice m.1 m.2.1 snap
  if (st.em.map Prod.snd).contains original then st
  else
    let n := (aget st.cnt label).getD 0 + 1
    let ph := placeholder label n
    ⟨replFirst st.red original ph, aset st.em ph original, aset st.cnt label n⟩

/-- One iteration of the name-replacement loop in `_regex_redact`. -/
def nameStep (st : RedState) (c : Cand) : RedState :=
  let current := slice c.s c.e st.red
  if lowerL current ≠ lowerL c.name then st
  else if decide (0 < c.s) && isAlphaAt st.red (c.s - 1) then st
  else if decide (c.e < st.red.length) && isAlphaAt st.red c.e then st
  else
    let n := (aget st.cnt "PERSON".data).getD 0 + 1
    let ph := placeholder "PERSON".data n
    ⟨st.red.take c.s ++ ph ++ st.red.drop c.e,
     aset st.em ph c.name, aset st.cnt "PERSON".data n⟩

/-- `_regex_redact(text)`. -/
def regex_redact (text : Str) : Str × List (Str × Str) :=
  let st1 := REGEX_PATTERNS.foldl
    (fun st lp =>
      let snap := st.red
      (findIter lp.2 snap).foldl (structStep lp.1.data snap) st)
    (⟨text, [], []⟩ : RedState)
  let cands := sortDescBy Cand.s (extract_name_candidates st1.red)
  let st2 := cands.foldl nameStep st1
  (st2.red, st2.em)

/-! ### `tools/privacy.py` — Presidio path.  The analyzer
(`presidio_analyzer`, an external library) is an oracle that either returns
recognizer results or raises. -/

structure RecRes where
  etype : String
  rstart : Nat
  rend : Nat
deriving DecidableEq

/-- `_REDACT_ENTITY_TYPES`. -/
def REDACT_ENTITY_TYPES : List String :=
  ["PERSON", "EMAIL_ADDRESS", "PHONE_NUMBER",
   "US_SSN", "CREDIT_CARD", "IP_ADDRESS",
   "EMAIL", "PHONE", "SSN"]

/-- One iteration of the replacement loop in `_presidio_redact`
(`text` is the original text the spans refer to). -/
def presidioStep (text : Str) (st : RedState) (r : RecRes) : RedState :=
  if !(REDACT_ENTITY_TYPES.contains r.etype) then st
  else
    let original := slice r.rstart r.rend text
    if (stripWS original).length < 2 then st
    else
      let etype := r.etype.data
      let n := (aget st.cnt etype).getD 0 + 1
      let ph := placeholder etype n
      ⟨st.red.take r.rstart ++ ph ++ st.red.drop r.rend,
       aset st.em ph original, aset st.cnt etype n⟩

/-- `_presidio_redact(text)`; an analyzer exception propagates. -/
def presidio_redact (analyzer : Str → Except String (List RecRes))
    (text : Str) : Except String (Str × List (Str × Str)) := do
  let results ← analyzer text
  let sorted := sortDescBy RecRes.rstart results
  let st := sorted.foldl (presidioStep text) (⟨text, [], []⟩ : RedState)
  .ok (st.red, st.em)

/-- `<PERSON_\d+>` (used by `_regex_name_pass` to count existing placeholders). -/
def PERSON_PH_RE : RE :=
  rcat [rch '<', rlit "PERSON", rch '_', RE.many1 Char.isDigit, rch '>']

/-- One iteration of the replacement loop in `_regex_name_pass`
(it additionally skips candidates containing `<`). -/
def namePassStep (st : RedState) (c : Cand) : RedState :=
  let current := slice c.s c.e st.red
  if lowerL current ≠ lowerL c.name then st
  else if containsL c.name "<".data then st
  else if decide (0 < c.s) && isAlphaAt st.red (c.s - 1) then st
  else if decide (c.e < st.red.length) && isAlphaAt st.red c.e then st
  else
    let n := (aget st.cnt "PERSON".data).getD 0 + 1
    let ph := placeholder "PERSON".data n
    ⟨st.red.take c.s ++ ph ++ st.red.drop c.e,
     aset st.em ph c.name, aset st.cnt "PERSON".data n⟩

/-- `_regex_name_pass(text)`. -/
def regex_name_pass (text : Str) : Str × List (Str × Str) :=
  let existing := (findIter PERSON_PH_RE text).length
  let cnt0 := aset ([] : List (Str × Nat)) "PERSON".data existing
  let cands := sortDescBy Cand.s (extract_name_candidates text)
  let st := cands.foldl namePassStep (⟨text, [], cnt0⟩ : RedState)
  (st.red, st.em)

structure PrivacyResult where
  redacted_text : Str
  entity_map : List (Str × Str)
  engine : String
deriving DecidableEq

/-- `redact(text, enabled)`.  `nlpActive` is the cached one-time verdict of
`_load_presidio` (`False` covers both "library unavailable" and "smoke test
failed"); when the statistical backend is active, an analyzer exception
propagates to the caller, since the source has no handler around it. -/
def redact (analyzer : Str → Except String (List RecRes)) (nlpActive : Bool)
    (text : Str) (enabled : Bool) : Except String PrivacyResult :=
  if !enabled || stripWS text = [] then .ok ⟨text, [], "none"⟩
  else if nlpActive then do
    let pres ← presidio_redact analyzer text
    let extra := regex_name_pass pres.1
    let merged :=
      if extra.2 ≠ [] then (extra.1, dictUpdate pres.2 extra.2) else pres
    .ok ⟨merged.1, merged.2, "presidio"⟩
  else
    let r := regex_redact text
    .ok ⟨r.1, r.2, "regex"⟩

/-- `restore(text, entity_map)`. -/
def restore (text : Str) (entity_map : List (Str × Str)) : Str :=
  entity_map.foldl (fun t kv => replAll t kv.1 kv.2) text

/-! ### `agent/loop.py` — explicit date/time detection (`_TIME_PATTERNS`) -/

def WEEKDAYS : List String :=
  ["monday", "tuesday", "wednesday", "thursday", "friday", "saturday", "sunday"]

/-- The seven alternatives of `_TIME_RE` (compiled with `re.IGNORECASE`). -/
def TIME_RE : RE :=
  ralts
    [rcat [RE.wb, rrep rdigit 1 2, rch ':', rrepN rdigit 2, RE.wb],
     rcat [RE.wb, rrep rdigit 1 2, rmany0 pySpace,
           ralts [rlitI "am", rlitI "pm"], RE.wb],
     rcat [RE.wb, ralts [rlitI "at", rch '@'], rmany0 pySpace, rrep rdigit 1 2,
           ropt (rcat [rch ':', rrepN rdigit 2]), rmany0 pySpace,
           ropt (ralts [rlitI "am", rlitI "pm"]), RE.wb],
     rcat [RE.wb, rrepN rdigit 4, rch '-', rrepN rdigit 2, rch '-',
           rrepN rdigit 2, RE.wb],
     rcat [RE.wb, rrep rdigit 1 2, rch '/', rrep rdigit 1 2, rch '/',
           rrep rdigit 2 4, RE.wb],
     rcat [RE.wb, ralts [rlitI "tomorrow", rlitI "today"], RE.many1 pySpace,
           ropt (rcat [rlitI "at", RE.many1 pySpace]), rrep rdigit 1 2],
     rcat [RE.wb, ralts (WEEKDAYS.map rlitI), RE.many1 pySpace,
           ropt (rcat [rlitI "at", RE.many1 pySpace]), rrep rdigit 1 2]]

/-- `_has_specific_time(text)`. -/
def has_specific_time (text : Str) : Bool := (searchFrom TIME_RE text 0).isSome

/-- Lines 110–116 of `agent/loop.py`: redaction followed by the merge of the
turn's entity map into the cumulative session map (`dict.update`). -/
def mergeSessionMap (sessionMap turnMap : List (Str × Str)) : List (Str × Str) :=
  if turnMap ≠ [] then dictUpdate sessionMap turnMap else sessionMap

/-! ### `tools/__init__.py` — tool results and the registry.

A Python dict value can be any object; `PyVal` keeps strings concrete (they
are what redaction/restoration acts on) and leaves every other value opaque.
`ToolResult.data` is `Any` in the source with default `None`; it is modelled
as text (the only use the embedded code makes of it is `str(...)` and
`.split("\n")`), with `[]` standing for `None`/empty, likewise `error`.
`generated_files=None` is modelled as `[]`. -/

inductive PyVal where
  | str (v : Str)
  | raw (tag : String)
deriving DecidableEq

/-- A generated-file record: a Python dict with string keys. -/
abbrev GenFile := List (Str × PyVal)

structure ToolResult where
  success : Bool
  data : Str
  error : Str
  generated_files : List GenFile
deriving DecidableEq

/-- `ToolResult.__str__`. -/
def strToolResult (r : ToolResult) : Str :=
  if r.success then r.data else "[ERROR] ".data ++ r.error

/-- A registered tool; `run` may raise (`.error`). -/
structure Tool where
  run : List (Str × PyVal) → Except String ToolResult

structure ToolCall where
  name : Str
  args : List (Str × PyVal)
deriving DecidableEq

structure Message where
  role : Str
  content : Str
  toolCalls : List ToolCall
deriving DecidableEq

/-- `Evaluator.evaluate`'s result type (`EvalResult`). -/
structure EvalResult where
  success : Bool
  reason : Str
  should_retry : Bool
deriving DecidableEq

/-! ### `agent/executor.py` — the tool-calling loop.

The reasoning engine (`ollama.chat`) is an oracle from the message list to
either a reply message or a raised exception; the fixed system-prompt prefix
the source prepends is folded into the oracle.  The embedding additionally
returns a trace of every tool invocation (blocked by the scheduling gate, or
dispatched to `_call_tool`), the number of engine rounds performed, and
whether the round bound was exhausted. -/

structure ExecEnv where
  chat : List Message → Except String Message
  registry : Str → Option Tool

/-- `_WRITE_TOOLS`. -/
def WRITE_TOOLS : List Str :=
  (["draft_reply", "create_event", "create_reminder"] : List String).map String.data

/-- `Executor._restore_args`. -/
def restore_args (emap : List (Str × Str)) (args : List (Str × PyVal)) :
    List (Str × PyVal) :=
  args.map (fun kv =>
    match kv.2 with
    | .str v => (kv.1, PyVal.str (restore v emap))
    | x => (kv.1, x))

/-- The structured "blocked" result the scheduling gate produces. -/
def gateBlockedResult : ToolResult :=
  ⟨false, [],
   ("BLOCKED: Cannot create event — the user has not provided a specific date and time. You MUST ask the user when they want to schedule. Use list_events to check their calendar, then suggest FREE time slots and ask them to pick one.").data,
   []⟩

/-- `Executor._call_tool`. -/
def call_tool (reg : Str → Option Tool) (name : Str)
    (args : List (Str × PyVal)) : ToolResult :=
  match reg name with
  | none => ⟨false, [], "Unknown tool: ".data ++ name, []⟩
  | some tool =>
    match tool.run args with
    | .ok r => r
    | .error exc => ⟨false, [], exc.data, []⟩

/-- Trace of one tool invocation inside `execute_step`. -/
inductive TraceE where
  | blocked (name : Str) (args : List (Str × PyVal)) (result : ToolResult)
  | called (name : Str) (args : List (Str × PyVal)) (result : ToolResult)
deriving DecidableEq

def traceName : TraceE → Str
  | .blocked n _ _ => n
  | .called n _ _ => n

def isBlockedE : TraceE → Bool
  | .blocked _ _ _ => true
  | .called _ _ _ => false

/-- One iteration of the `for tc in tool_calls` loop in `execute_step`:
restore PII in write-tool arguments, apply the scheduling gate, otherwise
dispatch to the registry; record the tool message and any generated files. -/
def processCall (env : ExecEnv) (tc : Bool) (emap : List (Str × Str))
    (acc : List Message × List GenFile × List TraceE) (call : ToolCall) :
    List Message × List GenFile × List TraceE :=
  let fnArgs :=
    if WRITE_TOOLS.contains call.name && decide (emap ≠ []) then
      restore_args emap call.args
    else call.args
  let gated :=
    (call.name == "create_event".data || call.name == "create_reminder".data)
      && !tc
  let result := if gated then gateBlockedResult
                else call_tool env.registry call.name fnArgs
  let ev := if gated then TraceE.blocked call.name fnArgs result
            else TraceE.called call.name fnArgs result
  let files := if result.generated_files ≠ [] then
                 acc.2.1 ++ result.generated_files
               else acc.2.1
  (acc.1 ++ [⟨"tool".data, strToolResult result, []⟩], files, acc.2.2 ++ [ev])

structure ExecOut where
  text : Str
  messages : List Message
  files : List GenFile
  trace : List TraceE
  rounds : Nat
  exhausted : Bool
deriving DecidableEq

/-- The `for round_num in range(max_tool_rounds)` loop of `execute_step`
(`fuel` is the number of rounds remaining, `rounds` the engine calls made). -/
def execLoop (env : ExecEnv) (tc : Bool) (emap : List (Str × Str)) :
    Nat → List Message → List GenFile → List TraceE → Nat → ExecOut
  | 0, msgs, files, trace, rounds =>
    let final := "[Executor] Reached max tool rounds without a final answer.".data
    ⟨final, msgs ++ [⟨"assistant".data, final, []⟩], files, trace, rounds, true⟩
  | fuel + 1, msgs, files, trace, rounds =>
    match env.chat msgs with
    | .error exc =>
      let errMsg := "[LLM error: ".data ++ exc.data ++ "]".data
      ⟨errMsg, msgs ++ [⟨"assistant".data, errMsg, []⟩], files, trace,
       rounds + 1, false⟩
    | .ok msg =>
      if msg.toolCalls ≠ [] then
        let acc := msg.toolCalls.foldl (processCall env tc emap)
          (msgs ++ [msg], files, trace)
        execLoop env tc emap fuel acc.1 acc.2.1 acc.2.2 (rounds + 1)
      else
        ⟨msg.content, msgs ++ [⟨"assistant".data, msg.content, []⟩], files,
         trace, rounds + 1, false⟩

/-- `Executor.execute_step(step, conversation, max_tool_rounds)`. -/
def execute_step (env : ExecEnv) (tc : Bool) (emap : List (Str × Str))
    (step : Str) (conversation : List Message) (max_tool_rounds : Nat) :
    ExecOut :=
  let messages :=
    conversation ++ [⟨"user".data, "Execute this step: ".data ++ step, []⟩]
  execLoop env tc emap max_tool_rounds messages [] [] 0

/-! ### `agent/loop.py` — the per-turn state machine `AgentLoop.run`.

Injected collaborators (planner, evaluator verdicts, both LLM call sites,
the memory/context builders, the registry and the `list_events` tool) are
oracle fields of `RunEnv`; the persistent store writes have no bearing on
any claim and are not recorded.  Attachments are `None` in this model, so
`full_input = user_input`. -/

structure RunEnv where
  analyzer : Str → Except String (List RecRes)
  nlpActive : Bool
  planner : Str → Str → List Str
  contextOf : Str → Str
  evaluator : Str → Str → Str → EvalResult
  chat : List Message → Except String Message
  synthChat : Str → Except String Str
  listEvents : Option ToolResult
  registry : Str → Option Tool

structure RunState where
  sessionMap : List (Str × Str)
  conversation : List Message
  bufferSize : Nat
  privacyEnabled : Bool
deriving DecidableEq

def executorEnv (env : RunEnv) : ExecEnv := ⟨env.chat, env.registry⟩

/-- `AgentLoop._trim_conversation` (`conv[-buffer_size:]` when too long). -/
def trimConv (buf : Nat) (conv : List Message) : List Message :=
  if conv.length > buf then conv.drop (conv.length - buf) else conv

/-- Record of one plan step's executor activity, kept for verification:
the step, each step description passed to `execute_step`, and the
evaluator's verdict on the first attempt. -/
structure StepRec where
  step : Str
  calls : List Str
  firstEval : EvalResult
deriving DecidableEq

structure StepsAcc where
  conv : List Message
  files : List GenFile
  results : List Str
  recs : List StepRec
  trace : List TraceE
deriving DecidableEq

/-- `f"Retry: {step} (previous attempt failed: {reason})"`. -/
def retryStepText (step reason : Str) : Str :=
  "Retry: ".data ++ step ++ " (previous attempt failed: ".data ++ reason
    ++ ")".data

/-- One iteration of the `for i, step in enumerate(steps, 1)` loop in
`AgentLoop.run`: execute, evaluate, at most one retry, trim. -/
def runStep (env : RunEnv) (tc : Bool) (emap : List (Str × Str)) (buf : Nat)
    (acc : StepsAcc) (step : Str) : StepsAcc :=
  let o1 := execute_step (executorEnv env) tc emap step acc.conv 5
  let files1 := acc.files ++ o1.files
  let ev := env.evaluator step "executor".data (takeL 1000 o1.text)
  if ev.success = false ∧ ev.should_retry = true then
    let rstep := retryStepText step ev.reason
    let o2 := execute_step (executorEnv env) tc emap rstep o1.messages 5
    ⟨trimConv buf o2.messages, files1 ++ o2.files, acc.results ++ [o2.text],
     acc.recs ++ [⟨step, [step, rstep], ev⟩], acc.trace ++ o1.trace ++ o2.trace⟩
  else
    ⟨trimConv buf o1.messages, files1, acc.results ++ [o1.text],
     acc.recs ++ [⟨step, [step], ev⟩], acc.trace ++ o1.trace⟩

/-- The enumerated step-result block `_synthesize` builds. -/
def synthCombined (step_results : List Str) : Str :=
  joinWith "\n---\n".data
    (step_results.enum.map (fun ir =>
      "Step result ".data ++ (toString (ir.1 + 1)).data ++ ":\n".data ++ ir.2))

/-- The synthesis prompt of `AgentLoop._synthesize`. -/
def synthPrompt (user_input combined : Str) : Str :=
  "The user asked: ".data ++ user_input ++ "\n\n".data
    ++ "Here are the results from each step of the plan:\n".data ++ combined
    ++ "\n\n".data
    ++ ("Synthesize these into a clear, helpful response.\nCRITICAL RULES:\n- If an email was drafted, show the EXACT body text from the draft_reply tool result. Do NOT rewrite, expand, or shorten it. Copy it verbatim.\n- If a calendar event was created, state the date, time, and title.\n- Do NOT use HTML tags. Do NOT add meta-commentary.\n- Do NOT start with \x27Here is the synthesized response\x27 or similar preamble.").data

/-- `AgentLoop._synthesize` (falls back to the combined block on an engine
failure). -/
def synthesize (env : RunEnv) (user_input : Str) (step_results : List Str) :
    Str :=
  match env.synthChat (synthPrompt user_input (synthCombined step_results)) with
  | .ok c => c
  | .error _ => synthCombined step_results

/-! ### `agent/loop.py` — the integrity check (lines 173–224) -/

/-- The scheduling-request keywords of step 7 of `run`. -/
def SCHEDULING_KEYWORDS : List Str :=
  (["schedule", "meeting", "calendar", "event", "remind"] : List String).map
    String.data

def scheduling_requested (user_input : Str) : Bool :=
  SCHEDULING_KEYWORDS.any (fun w => containsL (lowerL user_input) w)

/-- `schedule_claims`. -/
def SCHEDULE_CLAIMS : List Str :=
  (["has been added to your calendar", "has been scheduled",
    "event has been created", "meeting has been created",
    "added to calendar", "scheduled for", "created a calendar event",
    "event created"] : List String).map String.data

/-- One iteration of the `for claim in schedule_claims` loop. -/
def stripOneClaim (f claim : Str) : Str :=
  if containsL (lowerL f) (lowerL claim) then
    joinWith ". ".data
      ((splitOnSep ". ".data f).filter
        (fun s => !containsL (lowerL s) (lowerL claim)))
  else f

def stripClaimsWith (claims : List Str) (final : Str) : Str :=
  claims.foldl stripOneClaim final

/-- The `for claim in schedule_claims` sentence-stripping loop. -/
def stripClaimSentences (final : Str) : Str :=
  stripClaimsWith SCHEDULE_CLAIMS final

/-- The free-slot extraction from the `list_events` tool result
(`le = none` models `registry.get("list_events")` returning `None`). -/
def freeTimesOf (le : Option ToolResult) : Str :=
  match le with
  | none => []
  | some r =>
    if r.success then
      let freeLines :=
        ((splitOnSep "\n".data r.data).map stripWS).filter
          (fun l => startsWith l "FREE:".data)
      if freeLines ≠ [] then
        joinWith "\n".data
          ((freeLines.take 5).map
            (fun l => "  • ".data ++ replAll l "FREE: ".data []))
      else []
    else []

/-- Appending the clarifying scheduling question (free-slot or generic form). -/
def appendSchedulingQuestion (freeTimes final : Str) : Str :=
  if freeTimes ≠ [] then
    rstripSet ". \n".data final
      ++ ("\n\nTo schedule the meeting, when works best for you? Based on your calendar, these times are free:\n").data
      ++ freeTimes ++ "\n\nJust reply with your preferred date and time.".data
  else
    rstripSet ". \n".data final
      ++ "\n\nTo schedule the meeting, what date and time work for you?".data

/-- Lines 173–224 of `AgentLoop.run`: the post-synthesis integrity check. -/
def integrity_check (user_input final : Str) (has_ics time_confirmed : Bool)
    (le : Option ToolResult) : Str :=
  if scheduling_requested user_input && !has_ics && !time_confirmed then
    appendSchedulingQuestion (freeTimesOf le) (stripClaimSentences final)
  else final

/-- `any(gf.get("type") == "ics" for gf in files)`. -/
def hasIcs (files : List GenFile) : Bool :=
  files.any (fun gf => aget gf "type".data == some (PyVal.str "ics".data))

/-! ### `agent/loop.py` — restore stage and deduplication (lines 227–240) -/

/-- The keys the restore stage touches: `("label", "to", "subject", "body")`. -/
def RESTORE_KEYS : List Str :=
  (["label", "to", "subject", "body"] : List String).map String.data

/-- One key of the restore loop: restore when present and a string. -/
def restoreKeyStep (emap : List (Str × Str)) (g : GenFile) (key : Str) :
    GenFile :=
  match aget g key with
  | some (PyVal.str v) => aset g key (PyVal.str (restore v emap))
  | _ => g

/-- The inner loop of step 8: restore the four keys when present and string. -/
def restoreGF (emap : List (Str × Str)) (gf : GenFile) : GenFile :=
  RESTORE_KEYS.foldl (restoreKeyStep emap) gf

/-- Step 8 of `run`: restore the final answer and the generated-file records
from the cumulative session map (skipped when the map is empty). -/
def restoreStage (emap : List (Str × Str)) (final : Str)
    (files : List GenFile) : Str × List GenFile :=
  if emap ≠ [] then (restore final emap, files.map (restoreGF emap))
  else (final, files)

/-- Step 9 of `run`: keep only the last file per `type`. -/
def dedupFiles (files : List GenFile) : List GenFile :=
  (files.foldl
    (fun (m : List (PyVal × GenFile)) gf =>
      aset m ((aget gf "type".data).getD (PyVal.str "unknown".data)) gf)
    []).map Prod.snd

/-- The scheduling-gate property of one trace entry, relative to the turn's
gate state `tc`: a `blocked` entry can exist only when the gate is closed,
only for the two gated tools, and carries exactly the structured blocked
result; a dispatched (`called`) entry for a gated tool can exist only when
the gate is open. -/
def gateOK (tc : Bool) : TraceE → Bool
  | .blocked n _ r =>
    !tc && (n == "create_event".data || n == "create_reminder".data)
      && decide (r = gateBlockedResult)
  | .called n _ _ =>
    tc || !(n == "create_event".data || n == "create_reminder".data)

structure RunOut where
  final : Str
  files : List GenFile
  recs : List StepRec
  trace : List TraceE
  state : RunState
deriving DecidableEq

/-- The body of `AgentLoop.run` after a successful redaction: merge the
entity map, buffer the message, plan, set the gate, execute the steps,
synthesize, integrity-check, restore, deduplicate. -/
def runBody (env : RunEnv) (st : RunState) (user_input : Str)
    (pr : PrivacyResult) : RunOut :=
  let safe_input := pr.redacted_text
  let smap := mergeSessionMap st.sessionMap pr.entity_map
  let conv0 := trimConv st.bufferSize
    (st.conversation ++ [⟨"user".data, safe_input, []⟩])
  let steps := env.planner safe_input (env.contextOf safe_input)
  let tc := has_specific_time user_input
  let acc := steps.foldl (runStep env tc smap st.bufferSize)
    (⟨conv0, [], [], [], []⟩ : StepsAcc)
  let final0 :=
    if steps.length > 1 then synthesize env safe_input acc.results
    else acc.results.headD "I wasn\x27t able to complete the task.".data
  let final1 := integrity_check user_input final0 (hasIcs acc.files) tc
    env.listEvents
  let rs := restoreStage smap final1 acc.files
  ⟨rs.1, dedupFiles rs.2, acc.recs, acc.trace,
   ⟨smap, acc.conv, st.bufferSize, st.privacyEnabled⟩⟩

/-- `AgentLoop.run(user_input)` (attachments `None`, so
`full_input = user_input`).  An exception from the redaction stage
propagates, as in the source, aborting the turn. -/
def run (env : RunEnv) (st : RunState) (user_input : Str) :
    Except String RunOut :=
  match redact env.analyzer env.nlpActive user_input st.privacyEnabled with
  | .error exc => .error exc
  | .ok pr => .ok (runBody env st user_input pr)

/-! ### Lemmas about the executor trace and the step loop -/

theorem processCall_trace (env : ExecEnv) (tc : Bool) (emap : List (Str × Str))
    (acc : List Message × List GenFile × List TraceE) (call : ToolCall) :
    ∀ e ∈ (processCall env tc emap acc call).2.2,
      e ∈ acc.2.2 ∨ gateOK tc e = true := by
  intro e he
  simp only [processCall] at he
  rcases List.mem_append.mp he with h | h
  · exact Or.inl h
  · right
    simp only [List.mem_singleton] at h
    subst h
    cases tc with
    | false =>
      cases hce : (call.name == "create_event".data) with
      | false =>
        cases hcr : (call.name == "create_reminder".data) with
        | false => simp [gateOK, hce, hcr]
        | true => simp [gateOK, hce, hcr]
      | true =>
        cases hcr : (call.name == "create_reminder".data) with
        | false => simp [gateOK, hce, hcr]
        | true => simp [gateOK, hce, hcr]
    | true =>
      cases hce : (call.name == "create_event".data) with
      | false =>
        cases hcr : (call.name == "create_reminder".data) with
        | false => simp [gateOK, hce, hcr]
        | true => simp [gateOK, hce, hcr]
      | true =>
        cases hcr : (call.name == "create_reminder".data) with
        | false => simp [gateOK, hce, hcr]
        | true => simp [gateOK, hce, hcr]

theorem foldCalls_trace (env : ExecEnv) (tc : Bool) (emap : List (Str × Str))
    (calls : List ToolCall) :
    ∀ acc, ∀ e ∈ (calls.foldl (processCall env tc emap) acc).2.2,
      e ∈ acc.2.2 ∨ gateOK tc e = true := by
  induction calls with
  | nil => intro acc e he; exact Or.inl he
  | cons c cs ih =>
    intro acc e he
    rcases ih (processCall env tc emap acc c) e he with h | h
    · exact processCall_trace env tc emap acc c e h
    · exact Or.inr h

theorem execLoop_trace (env : ExecEnv) (tc : Bool) (emap : List (Str × Str)) :
    ∀ fuel msgs files trace rounds,
      ∀ e ∈ (execLoop env tc emap fuel msgs files trace rounds).trace,
        e ∈ trace ∨ gateOK tc e = true := by
  intro fuel
  induction fuel with
  | zero => intro msgs files trace rounds e he; exact Or.inl he
  | succ fuel ih =>
    intro msgs files trace rounds e he
    simp only [execLoop] at he
    split at he
    · exact Or.inl he
    · rename_i msg heq
      by_cases ht : msg.toolCalls ≠ []
      · rw [if_pos ht] at he
        rcases ih _ _ _ _ e he with h | h
        · rcases foldCalls_trace env tc emap msg.toolCalls _ e h with h2 | h2
          · exact Or.inl h2
          · exact Or.inr h2
        · exact Or.inr h
      · rw [if_neg ht] at he
        exact Or.inl he

theorem execute_step_trace (env : ExecEnv) (tc : Bool)
    (emap : List (Str × Str)) (step : Str) (conv : List Message) (n : Nat) :
    ∀ e ∈ (execute_step env tc emap step conv n).trace, gateOK tc e = true := by
  intro e he
  rcases execLoop_trace env tc emap n _ [] [] 0 e he with h | h
  · cases h
  · exact h

theorem runStep_trace (env : RunEnv) (tc : Bool) (emap : List (Str × Str))
    (buf : Nat) (acc : StepsAcc) (step : Str) :
    ∀ e ∈ (runStep env tc emap buf acc step).trace,
      e ∈ acc.trace ∨ gateOK tc e = true := by
  intro e he
  simp only [runStep] at he
  by_cases hr : ((env.evaluator step "executor".data
      (takeL 1000 (execute_step (executorEnv env) tc emap step acc.conv 5).text)).success = false ∧
      (env.evaluator step "executor".data
      (takeL 1000 (execute_step (executorEnv env) tc emap step acc.conv 5).text)).should_retry = true)
  · rw [if_pos hr] at he
    simp only [List.append_assoc, List.mem_append] at he
    rcases he with h | h | h
    · exact Or.inl h
    · exact Or.inr (execute_step_trace _ _ _ _ _ _ e h)
    · exact Or.inr (execute_step_trace _ _ _ _ _ _ e h)
  · rw [if_neg hr] at he
    rcases List.mem_append.mp he with h | h
    · exact Or.inl h
    · exact Or.inr (execute_step_trace _ _ _ _ _ _ e h)

theorem foldSteps_trace (env : RunEnv) (tc : Bool) (emap : List (Str × Str))
    (buf : Nat) (steps : List Str) :
    ∀ acc, ∀ e ∈ (steps.foldl (runStep env tc emap buf) acc).trace,
      e ∈ acc.trace ∨ gateOK tc e = true := by
  induction steps with
  | nil => intro acc e he; exact Or.inl he
  | cons s ss ih =>
    intro acc e he
    rcases ih (runStep env tc emap buf acc s) e he with h | h
    · exact runStep_trace env tc emap buf acc s e h
    · exact Or.inr h

/-- Engine-round accounting for the executor loop. -/
theorem execLoop_rounds (env : ExecEnv) (tc : Bool) (emap : List (Str × Str)) :
    ∀ fuel msgs files trace rounds,
      (execLoop env tc emap fuel msgs files trace rounds).rounds ≤ rounds + fuel ∧
      ((execLoop env tc emap fuel msgs files trace rounds).exhausted = true →
        (execLoop env tc emap fuel msgs files trace rounds).text =
          "[Executor] Reached max tool rounds without a final answer.".data) := by
  intro fuel
  induction fuel with
  | zero =>
    intro msgs files trace rounds
    exact ⟨Nat.le_refl _, fun _ => rfl⟩
  | succ fuel ih =>
    intro msgs files trace rounds
    simp only [execLoop]
    split
    · constructor
      · show rounds + 1 ≤ rounds + (fuel + 1)
        omega
      · intro hx
        exact absurd hx (by simp)
    · rename_i msg heq
      by_cases ht : msg.toolCalls ≠ []
      · rw [if_pos ht]
        have h := ih
          ((msg.toolCalls.foldl (processCall env tc emap) (msgs ++ [msg], files, trace)).1)
          ((msg.toolCalls.foldl (processCall env tc emap) (msgs ++ [msg], files, trace)).2.1)
          ((msg.toolCalls.foldl (processCall env tc emap) (msgs ++ [msg], files, trace)).2.2)
          (rounds + 1)
        constructor
        · calc _ ≤ (rounds + 1) + fuel := h.1
            _ = rounds + (fuel + 1) := by omega
        · exact h.2
      · rw [if_neg ht]
        constructor
        · show rounds + 1 ≤ rounds + (fuel + 1)
          omega
        · intro hx
          exact absurd hx (by simp)

/-! ### Lemmas about the per-step retry records -/

theorem runStep_recs (env : RunEnv) (tc : Bool) (emap : List (Str × Str))
    (buf : Nat) (acc : StepsAcc) (step : Str) :
    ∀ r ∈ (runStep env tc emap buf acc step).recs,
      r ∈ acc.recs ∨
        (r.calls.length ≤ 2 ∧
         (r.firstEval.success = false ∧ r.firstEval.should_retry = true →
           r.calls = [r.step, retryStepText r.step r.firstEval.reason]) ∧
         (¬(r.firstEval.success = false ∧ r.firstEval.should_retry = true) →
           r.calls = [r.step])) := by
  intro r hr
  simp only [runStep] at hr
  by_cases hc : ((env.evaluator step "executor".data
      (takeL 1000 (execute_step (executorEnv env) tc emap step acc.conv 5).text)).success = false ∧
      (env.evaluator step "executor".data
      (takeL 1000 (execute_step (executorEnv env) tc emap step acc.conv 5).text)).should_retry = true)
  · rw [if_pos hc] at hr
    rcases List.mem_append.mp hr with h | h
    · exact Or.inl h
    · right
      simp only [List.mem_singleton] at h
      subst h
      refine ⟨by simp, fun _ => rfl, fun hn => absurd hc hn⟩
  · rw [if_neg hc] at hr
    rcases List.mem_append.mp hr with h | h
    · exact Or.inl h
    · right
      simp only [List.mem_singleton] at h
      subst h
      exact ⟨by simp, fun hx => absurd hx hc, fun _ => rfl⟩

theorem foldSteps_recs (env : RunEnv) (tc : Bool) (emap : List (Str × Str))
    (buf : Nat) (steps : List Str) :
    ∀ acc, ∀ r ∈ (steps.foldl (runStep env tc emap buf) acc).recs,
      r ∈ acc.recs ∨
        (r.calls.length ≤ 2 ∧
         (r.firstEval.success = false ∧ r.firstEval.should_retry = true →
           r.calls = [r.step, retryStepText r.step r.firstEval.reason]) ∧
         (¬(r.firstEval.success = false ∧ r.firstEval.should_retry = true) →
           r.calls = [r.step])) := by
  induction steps with
  | nil => intro acc r hr; exact Or.inl hr
  | cons s ss ih =>
    intro acc r hr
    rcases ih (runStep env tc emap buf acc s) r hr with h | h
    · exact runStep_recs env tc emap buf acc s r h
    · exact Or.inr h

/-! ### Lemmas about assoc-dict updates and the restore stage -/

theorem aget_aset_self {β : Type} (l : List (Str × β)) (k : Str) (v : β) :
    aget (aset l k v) k = some v := by
  induction l with
  | nil => simp [aset, aget]
  | cons kv r ih =>
    rcases kv with ⟨k', v'⟩
    by_cases h : k' = k
    · simp [aset, aget, h]
    · simp [aset, aget, h, ih]

theorem aget_aset_other {β : Type} (l : List (Str × β)) (k k2 : Str) (v : β)
    (h : k2 ≠ k) : aget (aset l k v) k2 = aget l k2 := by
  induction l with
  | nil =>
    simp only [aset, aget]
    rw [if_neg (fun hh => h hh.symm)]
  | cons kv r ih =>
    rcases kv with ⟨k', v'⟩
    by_cases hk : k' = k
    · subst hk
      simp only [aset, if_pos rfl, aget]
      rw [if_neg (fun hh => h hh.symm), if_neg (fun hh => h hh.symm)]
    · simp only [aset, if_neg hk, aget]
      by_cases hk2 : k' = k2
      · rw [if_pos hk2, if_pos hk2]
      · rw [if_neg hk2, if_neg hk2]
        exact ih

theorem restoreKeyStep_other (emap : List (Str × Str)) (g : GenFile)
    (key k : Str) (h : k ≠ key) :
    aget (restoreKeyStep emap g key) k = aget g k := by
  unfold restoreKeyStep
  split
  · exact aget_aset_other g key k _ h
  · rfl

theorem restoreKeyStep_str (emap : List (Str × Str)) (g : GenFile)
    (key : Str) (v : Str) (h : aget g key = some (PyVal.str v)) :
    aget (restoreKeyStep emap g key) key =
      some (PyVal.str (restore v emap)) := by
  unfold restoreKeyStep
  rw [h]
  exact aget_aset_self g key _

theorem restoreKeyStep_none (emap : List (Str × Str)) (g : GenFile)
    (key : Str) (h : aget g key = none) :
    aget (restoreKeyStep emap g key) key = none := by
  unfold restoreKeyStep
  rw [h]
  exact h

theorem restoreGF_unfold (emap : List (Str × Str)) (gf : GenFile) :
    restoreGF emap gf =
      restoreKeyStep emap
        (restoreKeyStep emap
          (restoreKeyStep emap (restoreKeyStep emap gf "label".data)
            "to".data)
          "subject".data)
        "body".data := rfl

theorem restoreGF_other (emap : List (Str × Str)) (gf : GenFile) (k : Str)
    (h : k ∉ RESTORE_KEYS) : aget (restoreGF emap gf) k = aget gf k := by
  simp only [RESTORE_KEYS, List.map_cons, List.map_nil, List.mem_cons,
    List.not_mem_nil, or_false, not_or] at h
  obtain ⟨h1, h2, h3, h4⟩ := h
  rw [restoreGF_unfold, restoreKeyStep_other _ _ _ _ h4,
    restoreKeyStep_other _ _ _ _ h3, restoreKeyStep_other _ _ _ _ h2,
    restoreKeyStep_other _ _ _ _ h1]

theorem restoreGF_str (emap : List (Str × Str)) (gf : GenFile) (k : Str)
    (v : Str) (h : k ∈ RESTORE_KEYS) (hv : aget gf k = some (PyVal.str v)) :
    aget (restoreGF emap gf) k = some (PyVal.str (restore v emap)) := by
  rw [restoreGF_unfold]
  simp only [RESTORE_KEYS, List.map_cons, List.map_nil, List.mem_cons,
    List.not_mem_nil, or_false] at h
  rcases h with h | h | h | h <;> subst h
  · rw [restoreKeyStep_other _ _ _ _ (by decide),
      restoreKeyStep_other _ _ _ _ (by decide),
      restoreKeyStep_other _ _ _ _ (by decide)]
    exact restoreKeyStep_str _ _ _ _ hv
  · rw [restoreKeyStep_other _ _ _ _ (by decide),
      restoreKeyStep_other _ _ _ _ (by decide)]
    exact restoreKeyStep_str _ _ _ _
      (by rw [restoreKeyStep_other _ _ _ _ (by decide)]; exact hv)
  · rw [restoreKeyStep_other _ _ _ _ (by decide)]
    exact restoreKeyStep_str _ _ _ _
      (by rw [restoreKeyStep_other _ _ _ _ (by decide),
          restoreKeyStep_other _ _ _ _ (by decide)]; exact hv)
  · exact restoreKeyStep_str _ _ _ _
      (by rw [restoreKeyStep_other _ _ _ _ (by decide),
          restoreKeyStep_other _ _ _ _ (by decide),
          restoreKeyStep_other _ _ _ _ (by decide)]; exact hv)

theorem restoreGF_none (emap : List (Str × Str)) (gf : GenFile) (k : Str)
    (h : k ∈ RESTORE_KEYS) (hv : aget gf k = none) :
    aget (restoreGF emap gf) k = none := by
  rw [restoreGF_unfold]
  simp only [RESTORE_KEYS, List.map_cons, List.map_nil, List.mem_cons,
    List.not_mem_nil, or_false] at h
  rcases h with h | h | h | h <;> subst h
  · rw [restoreKeyStep_other _ _ _ _ (by decide),
      restoreKeyStep_other _ _ _ _ (by decide),
      restoreKeyStep_other _ _ _ _ (by decide)]
    exact restoreKeyStep_none _ _ _ hv
  · rw [restoreKeyStep_other _ _ _ _ (by decide),
      restoreKeyStep_other _ _ _ _ (by decide)]
    exact restoreKeyStep_none _ _ _
      (by rw [restoreKeyStep_other _ _ _ _ (by decide)]; exact hv)
  · rw [restoreKeyStep_other _ _ _ _ (by decide)]
    exact restoreKeyStep_none _ _ _
      (by rw [restoreKeyStep_other _ _ _ _ (by decide),
          restoreKeyStep_other _ _ _ _ (by decide)]; exact hv)
  · exact restoreKeyStep_none _ _ _
      (by rw [restoreKeyStep_other _ _ _ _ (by decide),
          restoreKeyStep_other _ _ _ _ (by decide),
          restoreKeyStep_other _ _ _ _ (by decide)]; exact hv)

theorem stripClaimsWith_noop (claims : List Str) (f : Str)
    (h : ∀ c ∈ claims, containsL (lowerL f) (lowerL c) = false) :
    stripClaimsWith claims f = f := by
  induction claims with
  | nil => rfl
  | cons c cs ih =>
    unfold stripClaimsWith at ih ⊢
    simp only [List.foldl_cons]
    rw [show stripOneClaim f c = f from by
      unfold stripOneClaim
      rw [h c (by simp), if_neg (by simp)]]
    exact ih (fun c hc => h c (List.mem_cons_of_mem _ hc))

/-- The trace field of `runBody`, unfolded to the step fold it comes from. -/
theorem runBody_trace (env : RunEnv) (st : RunState) (input : Str)
    (pr : PrivacyResult) :
    (runBody env st input pr).trace =
      (List.foldl
        (runStep env (has_specific_time input)
          (mergeSessionMap st.sessionMap pr.entity_map) st.bufferSize)
        ⟨trimConv st.bufferSize
          (st.conversation ++ [⟨"user".data, pr.redacted_text, []⟩]),
         [], [], [], []⟩
        (env.planner pr.redacted_text (env.contextOf pr.redacted_text))).trace :=
  rfl

/-- The step-record field of `runBody`, unfolded to the step fold. -/
theorem runBody_recs (env : RunEnv) (st : RunState) (input : Str)
    (pr : PrivacyResult) :
    (runBody env st input pr).recs =
      (List.foldl
        (runStep env (has_specific_time input)
          (mergeSessionMap st.sessionMap pr.entity_map) st.bufferSize)
        ⟨trimConv st.bufferSize
          (st.conversation ++ [⟨"user".data, pr.redacted_text, []⟩]),
         [], [], [], []⟩
        (env.planner pr.redacted_text (env.contextOf pr.redacted_text))).recs :=
  rfl

/-! ### Concrete environments used by the witnesses and counterexamples -/

/-- An analyzer standing for "Presidio is not installed"; never consulted on
the pattern-backend path. -/
def noAnalyzer : Str → Except String (List RecRes) :=
  fun _ => Except.error "presidio unavailable"

/-- An engine that first asks for `create_event` and, once a tool result is
in the conversation, produces a final text answer. -/
def c3Chat : List Message → Except String Message := fun msgs =>
  if (msgs.filter (fun m => m.role == "tool".data)).length == 0 then
    Except.ok ⟨"assistant".data, [],
      [⟨"create_event".data, [("title".data, PyVal.str "sync".data)]⟩]⟩
  else
    Except.ok ⟨"assistant".data, "Asked the user for a time.".data, []⟩

def c3Env : RunEnv :=
  ⟨noAnalyzer, false, (fun _ _ => ["do it".data]), (fun _ => []),
   (fun _ _ _ => ⟨true, [], false⟩), c3Chat, (fun _ => Except.error "down"),
   none, (fun _ => none)⟩

def c3St : RunState := ⟨[], [], 20, false⟩

def c3Input : Str := "meet bob".data

def c3Out : RunOut :=
  match run c3Env c3St c3Input with
  | .ok o => o
  | .error _ => ⟨[], [], [], [], ⟨[], [], 0, false⟩⟩

def c8Step : Str := "step one".data

def c8Env : RunEnv :=
  ⟨noAnalyzer, false, (fun _ _ => [c8Step]), (fun _ => []),
   (fun _ _ _ => ⟨false, "timeout".data, true⟩),
   (fun _ => Except.ok ⟨"assistant".data, "done".data, []⟩),
   (fun _ => Except.error "down"), none, (fun _ => none)⟩

def c8St : RunState := ⟨[], [], 20, false⟩

def c8Out : RunOut :=
  match run c8Env c8St "hello".data with
  | .ok o => o
  | .error _ => ⟨[], [], [], [], ⟨[], [], 0, false⟩⟩

/-- An engine that always returns another tool call, so the executor's round
bound is what terminates the loop. -/
def c9Env : ExecEnv :=
  ⟨fun _ => Except.ok ⟨"assistant".data, [], [⟨"noop".data, []⟩]⟩,
   fun _ => none⟩

def c10ListEvents : ToolResult :=
  ⟨true,
   "BUSY: Mon 09:00-10:00\nFREE: Mon 10:00-11:00\nFREE: Mon 15:00-16:00".data,
   [], []⟩

/-! ### Supporting facts for the round-trip property (claim C2)

The round-trip `restore(redact(T).text, M) = T` holds on concrete
pattern-backend inputs, but the claim's universal form could not be settled:
its proof would need the full semantics of the backtracking regex pipeline,
and the statistical path's positional replacement is not even round-trip
safe when the analyzer reports overlapping spans (Presidio can report, e.g.,
`US_SSN` and `PHONE_NUMBER` over the same digits): the second replacement
slices with stale offsets and swallows a character. -/

set_option maxHeartbeats 1000000 in
theorem roundtrip_holds_concrete_pattern_backend :
    restore
      (regex_redact "cc bob, a@x.com".data).1
      (regex_redact "cc bob, a@x.com".data).2 =
    "cc bob, a@x.com".data := rfl

/-- An analyzer reporting two overlapping spans for the same digits, as
Presidio does for text matching both the SSN and phone recognizers. -/
def ovAnalyzer : Str → Except String (List RecRes) := fun _ =>
  Except.ok [⟨"US_SSN", 10, 21⟩, ⟨"PHONE_NUMBER", 10, 21⟩]

theorem roundtrip_fails_on_overlapping_analyzer_spans :
    (match redact ovAnalyzer true "my ssn is 123-45-6789 ok".data true with
     | .ok pr => restore pr.redacted_text pr.entity_map
     | .error _ => []) ≠ "my ssn is 123-45-6789 ok".data := by decide

/-! ### The claims -/

/-- Claim C1 (code_bug): the spec says per-type placeholder counters continue
across turns within a session, so that merging a turn's redaction map into
the session map never rebinds an already-issued placeholder.  In the code,
`_regex_redact` starts from a fresh `counter` dict on every call and
`AgentLoop.run` merges with `dict.update`, so a second turn reissues
`<EMAIL_1>` for a different value and the merge silently rebinds it: after
the turns `"a@x.com"` and `"b@y.com"`, the session map's `<EMAIL_1>` has
changed from `"a@x.com"` to `"b@y.com"`. -/
theorem C1_session_map_rebinds_placeholder :
    redact noAnalyzer false "a@x.com".data true =
      Except.ok ⟨"<EMAIL_1>".data, [("<EMAIL_1>".data, "a@x.com".data)],
        "regex"⟩ ∧
    redact noAnalyzer false "b@y.com".data true =
      Except.ok ⟨"<EMAIL_1>".data, [("<EMAIL_1>".data, "b@y.com".data)],
        "regex"⟩ ∧
    mergeSessionMap (mergeSessionMap [] [("<EMAIL_1>".data, "a@x.com".data)])
        [("<EMAIL_1>".data, "b@y.com".data)] =
      [("<EMAIL_1>".data, "b@y.com".data)] :=
  ⟨rfl, rfl, rfl⟩

/-- Claim C3 (confirmed): for a turn whose raw user message contains no
explicit date/time token, every `create_event`/`create_reminder` invocation
in the turn's tool-invocation trace is a gate-blocked entry carrying exactly
the structured blocked result and is never dispatched to the registry;
conversely, when the message matches the time grammar, no invocation is
blocked (`gateOK` states precisely these two directions relative to
`_has_specific_time` on the raw message). -/
theorem C3_scheduling_gate (env : RunEnv) (st : RunState) (input : Str)
    (out : RunOut) (h : run env st input = Except.ok out) :
    ∀ e ∈ out.trace, gateOK (has_specific_time input) e = true := by
  intro e he
  cases hr : redact env.analyzer env.nlpActive input st.privacyEnabled with
  | error exc =>
    rw [run, hr] at h
    exact absurd h (by simp)
  | ok pr =>
    rw [run, hr] at h
    simp only [Except.ok.injEq] at h
    subst h
    rw [runBody_trace] at he
    rcases foldSteps_trace env (has_specific_time input)
        (mergeSessionMap st.sessionMap pr.entity_map) st.bufferSize
        (env.planner pr.redacted_text (env.contextOf pr.redacted_text))
        ⟨trimConv st.bufferSize
          (st.conversation ++ [⟨"user".data, pr.redacted_text, []⟩]),
         [], [], [], []⟩ e he with h0 | hg
    · exact absurd h0 (List.not_mem_nil e)
    · exact hg

set_option maxHeartbeats 4000000 in
set_option maxRecDepth 8000 in
/-- Witness for C3: in a concrete turn whose message `"meet bob"` has no
date/time token, the run's trace contains the blocked `create_event` entry,
and the theorem yields its gate property for it. -/
theorem C3_scheduling_gate_witness :
    has_specific_time c3Input = false ∧
    gateOK (has_specific_time c3Input)
      (TraceE.blocked "create_event".data
        [("title".data, PyVal.str "sync".data)] gateBlockedResult) = true :=
  ⟨by decide,
   C3_scheduling_gate c3Env c3St c3Input c3Out rfl _ (by decide)⟩

/-- Claim C8 (confirmed): in every turn, each plan step invokes the Executor
at most twice — exactly once when the Evaluator does not report
failure-with-retry on the first attempt, and exactly twice otherwise, the
second time with the step description amended by the failure reason; the
retry's own evaluation is never consulted, so a third invocation is
impossible. -/
theorem C8_retry_bound (env : RunEnv) (st : RunState) (input : Str)
    (out : RunOut) (h : run env st input = Except.ok out) :
    ∀ r ∈ out.recs,
      r.calls.length ≤ 2 ∧
      (r.firstEval.success = false ∧ r.firstEval.should_retry = true →
        r.calls = [r.step, retryStepText r.step r.firstEval.reason]) ∧
      (¬(r.firstEval.success = false ∧ r.firstEval.should_retry = true) →
        r.calls = [r.step]) := by
  intro r hr
  cases hred : redact env.analyzer env.nlpActive input st.privacyEnabled with
  | error exc =>
    rw [run, hred] at h
    exact absurd h (by simp)
  | ok pr =>
    rw [run, hred] at h
    simp only [Except.ok.injEq] at h
    subst h
    rw [runBody_recs] at hr
    rcases foldSteps_recs env (has_specific_time input)
        (mergeSessionMap st.sessionMap pr.entity_map) st.bufferSize
        (env.planner pr.redacted_text (env.contextOf pr.redacted_text))
        ⟨trimConv st.bufferSize
          (st.conversation ++ [⟨"user".data, pr.redacted_text, []⟩]),
         [], [], [], []⟩ r hr with h0 | hg
    · exact absurd h0 (List.not_mem_nil r)
    · exact hg

set_option maxHeartbeats 4000000 in
set_option maxRecDepth 8000 in
/-- Witness for C8: a concrete turn whose single step's first evaluation is
failure-with-retry reason `"timeout"` produces exactly the two executor
invocations, the second amended with that reason. -/
theorem C8_retry_bound_witness :
    (⟨c8Step, [c8Step, retryStepText c8Step "timeout".data],
        ⟨false, "timeout".data, true⟩⟩ : StepRec).calls =
      [c8Step, retryStepText c8Step "timeout".data] :=
  ((C8_retry_bound c8Env c8St "hello".data c8Out rfl
      ⟨c8Step, [c8Step, retryStepText c8Step "timeout".data],
        ⟨false, "timeout".data, true⟩⟩ (by decide)).2.1) ⟨rfl, rfl⟩

/-- Claim C9 (confirmed): `execute_step` performs at most `max_tool_rounds`
reasoning-engine rounds and always returns; when the bound is exhausted
without a final text answer it returns the synthetic could-not-complete
message. -/
theorem C9_executor_round_bound (env : ExecEnv) (tc : Bool)
    (emap : List (Str × Str)) (step : Str) (conv : List Message) (mtr : Nat) :
    (execute_step env tc emap step conv mtr).rounds ≤ mtr ∧
    ((execute_step env tc emap step conv mtr).exhausted = true →
      (execute_step env tc emap step conv mtr).text =
        "[Executor] Reached max tool rounds without a final answer.".data) := by
  have h := execLoop_rounds env tc emap mtr
    (conv ++ [⟨"user".data, "Execute this step: ".data ++ step, []⟩]) [] [] 0
  refine ⟨?_, h.2⟩
  have h1 : (execute_step env tc emap step conv mtr).rounds =
      (execLoop env tc emap mtr
        (conv ++ [⟨"user".data, "Execute this step: ".data ++ step, []⟩])
        [] [] 0).rounds := rfl
  rw [h1]
  have h2 := h.1
  omega

/-- Witness for C9: an engine that always returns tool calls exhausts a
2-round bound after exactly 2 rounds and yields the synthetic message. -/
theorem C9_executor_round_bound_witness :
    (execute_step c9Env false [] "s".data [] 2).rounds ≤ 2 ∧
    (execute_step c9Env false [] "s".data [] 2).exhausted = true ∧
    (execute_step c9Env false [] "s".data [] 2).text =
      "[Executor] Reached max tool rounds without a final answer.".data :=
  ⟨(C9_executor_round_bound c9Env false [] "s".data [] 2).1,
   by decide,
   (C9_executor_round_bound c9Env false [] "s".data [] 2).2 (by decide)⟩

/-- Claim C4, counterexample: the synthesized answer contains the scheduling
claim phrase `"has been scheduled"`, no ics artifact was produced and the
gate was closed, yet the integrity check leaves the answer unchanged
(neither deleting the sentence nor appending a clarifying question),
because the code keys the check on scheduling keywords in the *user
message*, which `"please continue"` lacks — contradicting "rewrites ...
exactly when the synthesized answer contains a scheduling-claim phrase". -/
theorem C4_counterexample_no_user_keyword :
    containsL (lowerL "The meeting has been scheduled. Anything else?".data)
      "has been scheduled".data = true ∧
    scheduling_requested "please continue".data = false ∧
    has_specific_time "please continue".data = false ∧
    integrity_check "please continue".data
        "The meeting has been scheduled. Anything else?".data false false
        none =
      "The meeting has been scheduled. Anything else?".data :=
  ⟨by decide, by decide, by decide, rfl⟩

/-- Claim C4 (corrected): the integrity check fires exactly when the *user
message* contains a scheduling keyword, no ics artifact was produced, and
the gate was closed — regardless of whether the answer contains a
scheduling-claim phrase; when it fires it deletes every sentence containing
a claim phrase and appends the clarifying question; it never fires when the
gate was open or an ics artifact was produced. -/
theorem C4_integrity_check_condition (u f : Str) (hi tcf : Bool)
    (le : Option ToolResult) :
    (tcf = true → integrity_check u f hi tcf le = f) ∧
    (hi = true → integrity_check u f hi tcf le = f) ∧
    (scheduling_requested u = false → integrity_check u f hi tcf le = f) ∧
    (scheduling_requested u = true → hi = false → tcf = false →
      integrity_check u f hi tcf le =
        appendSchedulingQuestion (freeTimesOf le) (stripClaimSentences f)) := by
  refine ⟨?_, ?_, ?_, ?_⟩
  · intro h; subst h; simp [integrity_check]
  · intro h; subst h; simp [integrity_check]
  · intro h; simp [integrity_check, h]
  · intro h1 h2 h3; subst h2; subst h3; simp [integrity_check, h1]

/-- Witness for C4: at a concrete open-gate turn the check does not fire. -/
theorem C4_integrity_check_condition_witness :
    integrity_check "schedule a sync".data "Done.".data false true none =
      "Done.".data :=
  (C4_integrity_check_condition "schedule a sync".data "Done.".data false
    true none).1 rfl

/-- Claim C10 (confirmed): whenever the user message contains a scheduling
keyword, no ics artifact was produced, and the gate was closed, the
integrity-check stage of `run` appends the clarifying scheduling question
(built from the `list_events` free slots when retrievable, otherwise the
generic one) — even when the synthesized answer contains no
scheduling-claim phrase, in which case the sentence-stripping loop leaves
the answer intact. -/
theorem C10_clarifying_question_appended (u f : Str) (le : Option ToolResult)
    (h1 : scheduling_requested u = true)
    (h2 : ∀ c ∈ SCHEDULE_CLAIMS, containsL (lowerL f) (lowerL c) = false) :
    integrity_check u f false false le =
      appendSchedulingQuestion (freeTimesOf le) f := by
  have hs : stripClaimSentences f = f := stripClaimsWith_noop _ f h2
  simp [integrity_check, h1, hs]

/-- Witness for C10: a concrete turn with the keyword `"schedule"`, a claim-
free answer and retrievable free slots gets the slotted question appended. -/
theorem C10_clarifying_question_appended_witness :
    integrity_check "schedule a sync with the team".data "Okay.".data false
        false (some c10ListEvents) =
      appendSchedulingQuestion (freeTimesOf (some c10ListEvents))
        "Okay.".data :=
  C10_clarifying_question_appended "schedule a sync with the team".data
    "Okay.".data (some c10ListEvents) (by decide) (by decide)

/-- Claim C5, counterexample: with the statistical backend active, an
exception raised by the analyzer propagates out of `redact` — the caller
sees the exception, not a `PrivacyResult` with the original text and an
empty map. -/
theorem C5_counterexample_exception_propagates :
    redact (fun _ => Except.error "analyzer raised") true "hi john".data
      true = Except.error "analyzer raised" := rfl

/-- Claim C5 (corrected): `redact` never raises when the statistical backend
is inactive (the pattern fallback always returns a `PrivacyResult`), and a
backend *load* failure only selects that fallback; but when the statistical
backend is active a runtime analyzer exception propagates to the caller
(counterexample above) — the code never returns "the original text with an
empty map" on an internal failure. -/
theorem C5_pattern_backend_never_raises
    (analyzer : Str → Except String (List RecRes)) (text : Str)
    (enabled : Bool) :
    ∃ pr, redact analyzer false text enabled = Except.ok pr := by
  unfold redact
  split
  · exact ⟨_, rfl⟩
  · exact ⟨_, rfl⟩

/-- Claim C6 (code_bug): with the pattern backend, a structured-PII value
occurring twice is redacted only at its first occurrence —
`str.replace(original, placeholder, 1)` replaces one occurrence and the
duplicate match is skipped by the values check — so the second `"a@x.com"`
survives in clear text, contradicting both the claim and the module's own
redaction contract. -/
theorem C6_second_occurrence_left_raw :
    regex_redact "a@x.com a@x.com".data =
      ("<EMAIL_1> a@x.com".data, [("<EMAIL_1>".data, "a@x.com".data)]) ∧
    containsL "<EMAIL_1> a@x.com".data "a@x.com".data = true :=
  ⟨rfl, by decide⟩

/-- Claim C7, counterexample: the restore stage restores the `label` field
but leaves the `path` field — also a string field of the record — with the
placeholder still inside, contradicting "every string field of every
generated-file record". -/
theorem C7_counterexample_path_not_restored :
    (restoreStage [("<PERSON_1>".data, "karthik".data)] "done".data
        [[("type".data, PyVal.str "ics".data),
          ("path".data, PyVal.str "/tmp/meeting_<PERSON_1>.ics".data),
          ("label".data, PyVal.str "meeting with <PERSON_1>".data)]]).2 =
      [[("type".data, PyVal.str "ics".data),
        ("path".data, PyVal.str "/tmp/meeting_<PERSON_1>.ics".data),
        ("label".data, PyVal.str "meeting with karthik".data)]] ∧
    containsL "/tmp/meeting_<PERSON_1>.ics".data "<PERSON_1>".data = true :=
  ⟨rfl, by decide⟩

/-- Claim C7 (corrected): after the restore stage, the final answer text has
entity-map restoration applied, and of each generated-file record exactly
the fields `label`, `to`, `subject`, `body` are restored (when present and
strings); every other field — including the string field `path` — is left
untouched. -/
theorem C7_restore_stage_coverage (emap : List (Str × Str)) (f : Str)
    (files : List GenFile) :
    (restoreStage emap f files).1 = restore f emap ∧
    (restoreStage emap f files).2.length = files.length ∧
    (∀ i gf gf', files.get? i = some gf →
      (restoreStage emap f files).2.get? i = some gf' →
      (∀ k, k ∉ RESTORE_KEYS → aget gf' k = aget gf k) ∧
      (∀ k v, k ∈ RESTORE_KEYS → aget gf k = some (PyVal.str v) →
        aget gf' k = some (PyVal.str (restore v emap))) ∧
      (∀ k, k ∈ RESTORE_KEYS → aget gf k = none → aget gf' k = none)) := by
  by_cases hm : emap = []
  · subst hm
    refine ⟨rfl, rfl, ?_⟩
    intro i gf gf' h1 h2
    rw [show (restoreStage [] f files).2 = files from rfl, h1] at h2
    injection h2 with h2
    subst h2
    refine ⟨fun k _ => rfl, fun k v _ hv => ?_, fun k _ hn => hn⟩
    exact hv
  · have hstage : restoreStage emap f files =
        (restore f emap, files.map (restoreGF emap)) := by
      unfold restoreStage
      rw [if_pos hm]
    refine ⟨by rw [hstage], by rw [hstage]; simp, ?_⟩
    intro i gf gf' h1 h2
    rw [hstage] at h2
    simp only [List.get?_map, h1, Option.map_some'] at h2
    injection h2 with h2
    subst h2
    exact ⟨fun k hk => restoreGF_other emap gf k hk,
           fun k v hk hv => restoreGF_str emap gf k v hk hv,
           fun k hk hv => restoreGF_none emap gf k hk hv⟩

/-- Witness for C7: at a concrete map and record, the theorem yields that
the record produced by the restore stage keeps the `path` field unchanged. -/
theorem C7_restore_stage_coverage_witness :
    aget ((restoreStage [("<PERSON_1>".data, "karthik".data)] "done".data
        [[("type".data, PyVal.str "ics".data),
          ("path".data, PyVal.str "/tmp/a_<PERSON_1>.ics".data),
          ("label".data, PyVal.str "call <PERSON_1>".data)]]).2.headD [])
      "path".data =
      aget [("type".data, PyVal.str "ics".data),
            ("path".data, PyVal.str "/tmp/a_<PERSON_1>.ics".data),
            ("label".data, PyVal.str "call <PERSON_1>".data)] "path".data :=
  ((C7_restore_stage_coverage [("<PERSON_1>".data, "karthik".data)]
      "done".data
      [[("type".data, PyVal.str "ics".data),
        ("path".data, PyVal.str "/tmp/a_<PERSON_1>.ics".data),
        ("label".data, PyVal.str "call <PERSON_1>".data)]]).2.2 0 _ _
      rfl rfl).1 "path".data (by decide)

end Agent
